import Mathlib

/-!
Shallow embedding of the world-outline-map interaction engine
(`src/app.js` / the bundled copy in `src/unnamed/part_001`): the pan/zoom
controller, the highlight state machine, and the timed game-round state
machine, together with proofs of the specification's claims about them.

JS numbers are modelled as exact rationals (`ℚ`); `Number(x) || d` coercions
on config entries are modelled with `Option ℚ` (`none` = missing / NaN) via
`numOr`; the UI message strings, DOM wiring and timers are outside the model
(the countdown tick callback body is modelled as the pure step
`countdownTick`).
-/

namespace WorldMap

/-! ### Pan/zoom controller (`setupMapNavigation`, `clamp`, `clampPan`) -/

/-- A 2D vector `{x, y}`, used both for pan offsets and screen points. -/
structure Pan where
  x : ℚ
  y : ℚ
deriving DecidableEq, Repr

/-- The view transform: `state.zoom` and `state.pan`. -/
structure ViewState where
  zoom : ℚ
  pan : Pan
deriving DecidableEq, Repr

/-- The effective navigation constants captured by `setupMapNavigation`'s
closure, plus the viewport element's client size. -/
structure NavConfig where
  minZoom : ℚ
  maxZoom : ℚ
  zoomStep : ℚ
  wheelZoomStep : ℚ
  panPadding : ℚ
  clientWidth : ℚ
  clientHeight : ℚ
deriving DecidableEq, Repr

/-- `function clamp(value, min, max) { return Math.min(max, Math.max(min, value)); }` -/
def clamp (value lo hi : ℚ) : ℚ := min hi (max lo value)

/-- `getViewportSize`: `width: Math.max(320, svgEl.clientWidth || 0)`. -/
def viewportWidth (cfg : NavConfig) : ℚ := max 320 cfg.clientWidth

/-- `getViewportSize`: `height: Math.max(200, svgEl.clientHeight || 0)`. -/
def viewportHeight (cfg : NavConfig) : ℚ := max 200 cfg.clientHeight

/-- `function clampPan({ pan, zoom, width, height, panPadding })`. -/
def clampPan (pan : Pan) (zoom width height panPadding : ℚ) : Pan :=
  if zoom ≤ 1 then ⟨0, 0⟩
  else
    let minX := width * (1 - zoom) - panPadding
    let maxX := panPadding
    let minY := height * (1 - zoom) - panPadding
    let maxY := panPadding
    ⟨clamp pan.x minX maxX, clamp pan.y minY maxY⟩

/-- JS `Number(z) || 1` applied to a (numeric) zoom value: `0` coerces to `1`. -/
def zoomOr1 (z : ℚ) : ℚ := if z = 0 then 1 else z

/-- `zoomAroundPoint(nextZoom, point)`: returns the `changed` flag together
with the updated view state. -/
def zoomAroundPoint (cfg : NavConfig) (s : ViewState) (nextZoom : ℚ) (point : Pan) :
    Bool × ViewState :=
  let currentZoom := zoomOr1 s.zoom
  let clampedZoom := clamp nextZoom cfg.minZoom cfg.maxZoom
  if |clampedZoom - currentZoom| < 1/10000 then (false, s)
  else
    let ratio := clampedZoom / currentZoom
    let rawPan : Pan :=
      ⟨point.x - ratio * (point.x - s.pan.x), point.y - ratio * (point.y - s.pan.y)⟩
    (true, ⟨clampedZoom,
      clampPan rawPan clampedZoom (viewportWidth cfg) (viewportHeight cfg) cfg.panPadding⟩)

/-- `panBy(dx, dy)`: no-op at `zoom ≤ 1`, otherwise offsets and clamps the pan. -/
def panBy (cfg : NavConfig) (s : ViewState) (dx dy : ℚ) : Bool × ViewState :=
  let zoom := zoomOr1 s.zoom
  if zoom ≤ 1 then (false, s)
  else
    (true, ⟨s.zoom,
      clampPan ⟨s.pan.x + dx, s.pan.y + dy⟩ zoom
        (viewportWidth cfg) (viewportHeight cfg) cfg.panPadding⟩)

/-! ### Config coercion (`setupMapNavigation` / `setupGameMode` headers) -/

/-- A raw numeric config entry as read from the visual configuration:
`none` models a missing or non-numeric value (JS `Number(...)` = `NaN`). -/
def numOr (x : Option ℚ) (d : ℚ) : ℚ :=
  match x with
  | none => d
  | some v => if v = 0 then d else v

/-- The raw (unvalidated) configuration record consumed by the two setup
functions. -/
structure RawConfig where
  minZoom : Option ℚ
  maxZoom : Option ℚ
  zoomStep : Option ℚ
  wheelZoomStep : Option ℚ
  panPadding : Option ℚ
  gameRoundSeconds : Option ℚ
  gameTargetCount : Option ℚ
  gameCorrectScore : Option ℚ
  gameWrongPenalty : Option ℚ
  gameStreakBonus : Option ℚ
  gameWinTimeBonusPerSecond : Option ℚ
deriving DecidableEq, Repr

/-- The header of `setupMapNavigation`: effective navigation constants. -/
def setupNavConfig (raw : RawConfig) (clientWidth clientHeight : ℚ) : NavConfig :=
  let minZoom := numOr raw.minZoom 1
  { minZoom := minZoom
    maxZoom := max minZoom (numOr raw.maxZoom 8)
    zoomStep := max (101/100) (numOr raw.zoomStep (6/5))
    wheelZoomStep := max (1/100) (numOr raw.wheelZoomStep (3/20))
    panPadding := max 0 (numOr raw.panPadding 0)
    clientWidth := clientWidth
    clientHeight := clientHeight }

/-- The effective game constants captured by `setupGameMode`'s closure. -/
structure GameConfig where
  roundSeconds : ℚ
  maxTargetCount : ℚ
  correctScore : ℚ
  wrongPenalty : ℚ
  streakBonus : ℚ
  winTimeBonusPerSecond : ℚ
deriving DecidableEq, Repr

/-- The header of `setupGameMode`: effective game constants. -/
def setupGameConfig (raw : RawConfig) : GameConfig :=
  { roundSeconds := max 15 (numOr raw.gameRoundSeconds 120)
    maxTargetCount := max 1 (numOr raw.gameTargetCount 10)
    correctScore := max 1 (numOr raw.gameCorrectScore 10)
    wrongPenalty := max 0 (numOr raw.gameWrongPenalty 4)
    streakBonus := max 0 (numOr raw.gameStreakBonus 2)
    winTimeBonusPerSecond := max 0 (numOr raw.gameWinTimeBonusPerSecond 1) }

/-! ### Highlight state (`createHighlightActions`) -/

/-- `HighlightState`: `initialColors` is a JS object keyed by single letters,
modelled as an association list in property-insertion order. -/
structure HighlightState where
  initialColors : List (Char × String)
  colorCursor : Nat
  activeInitial : Option Char
deriving DecidableEq, Repr

/-- `String.prototype.toLowerCase`, restricted to the ASCII range (the only
range the a–z guard can accept). -/
def lowerString (s : String) : String := ⟨s.data.map Char.toLower⟩

/-- The `/^[a-z]$/` test. -/
def testSingleLowercase (str : String) : Bool :=
  match str.data with
  | [c] => 'a' ≤ c && c ≤ 'z'
  | _ => false

/-- JS truthiness of `state.initialColors[letter]` for a single-char key:
the stored color, or `""` when the key is absent. -/
def colorAt (s : HighlightState) (c : Char) : String :=
  (s.initialColors.lookup c).getD ""

/-- JS property assignment `obj[key] = v`: overwrite in place if the key
exists, otherwise append (insertion order preserved). -/
def setColor (colors : List (Char × String)) (c : Char) (v : String) :
    List (Char × String) :=
  if colors.any (fun p => p.1 == c) then
    colors.map (fun p => if p.1 == c then (c, v) else p)
  else colors ++ [(c, v)]

/-- `addInitial(initial)`: lowercase, test `/^[a-z]$/`, reject active letters,
otherwise assign `palette[cursor % palette.length]` and advance the cursor. -/
def addInitial (palette : List String) (s : HighlightState) (input : String) :
    Bool × HighlightState :=
  let letter := lowerString input
  match letter.data with
  | [c] =>
    if ('a' ≤ c && c ≤ 'z') = false then (false, s)
    else if colorAt s c ≠ "" then (false, s)
    else
      let nextColor := palette.getD (s.colorCursor % palette.length) ""
      (true, ⟨setColor s.initialColors c nextColor, s.colorCursor + 1, some c⟩)
  | _ => (false, s)

/-- `removeInitial(initial)`: no-op on an inactive key, otherwise delete the
color mapping and clear `activeInitial` if it pointed at this letter. -/
def removeInitial (s : HighlightState) (input : String) : Bool × HighlightState :=
  let letter := lowerString input
  match letter.data with
  | [c] =>
    if colorAt s c = "" then (false, s)
    else
      (true, ⟨s.initialColors.filter (fun p => p.1 != c), s.colorCursor,
        if s.activeInitial = some c then none else s.activeInitial⟩)
  | _ => (false, s)

/-- `toggleInitial(initial)`. -/
def toggleInitial (palette : List String) (s : HighlightState) (input : String) :
    Bool × HighlightState :=
  let letter := lowerString input
  match letter.data with
  | [c] => if colorAt s c ≠ "" then removeInitial s input else addInitial palette s input
  | _ => addInitial palette s input

/-- `clearHighlights()`. -/
def clearHighlights (s : HighlightState) : Bool × HighlightState :=
  if s.initialColors.length = 0 then (false, s)
  else (true, ⟨[], 0, none⟩)

/-- The initial highlight state (`defaultState` in `mapState.js`). -/
def emptyHighlight : HighlightState := ⟨[], 0, none⟩

/-! ### Game round state machine (`setupGameMode`) -/

/-- `state.gameStatus`. -/
inductive GameStatus
  | idle
  | running
  | won
  | lost
deriving DecidableEq, Repr

/-- The game-round fields of the shared state object.  UI message strings are
outside the model; the rest of the fields mirror `defaultState`/`setupGameMode`.
`requiredCount` is a rational because `Math.min(maxTargetCount, length)` takes
the coerced (possibly fractional) configured maximum. -/
structure GameState where
  active : Bool
  status : GameStatus
  targetLetter : Option Char
  requiredCount : ℚ
  targetCountryIds : List String
  foundCountryIds : List String
  score : ℚ
  streak : Nat
  bestStreak : Nat
  bestScore : ℚ
  foundCount : Nat
  timeRemaining : ℚ
deriving DecidableEq, Repr

/-- The idle defaults (`defaultState` in `mapState.js`). -/
def initialGameState : GameState :=
  { active := false, status := .idle, targetLetter := none, requiredCount := 0
    targetCountryIds := [], foundCountryIds := [], score := 0, streak := 0
    bestStreak := 0, bestScore := 0, foundCount := 0, timeRemaining := 0 }

/-- `resetRoundState(message)`: returns every round field to its idle default
(the best score is kept). -/
def resetRoundState (cfg : GameConfig) (s : GameState) : GameState :=
  { s with
    active := false, status := .idle, targetLetter := none,
    requiredCount := 0, targetCountryIds := [], foundCountryIds := [],
    score := 0, streak := 0, bestStreak := 0, foundCount := 0,
    timeRemaining := cfg.roundSeconds }

/-- An eligible catalog entry produced by `collectCountryCatalog`: a country
id together with the lowercased first letter of its display name. -/
structure Country where
  id : String
  initial : Char
deriving DecidableEq, Repr

/-- One step of the `letterBuckets` construction: a JS `Map` keyed by initial,
pushing each country onto its bucket (key insertion order preserved). -/
def addToBuckets (buckets : List (Char × List Country)) (c : Country) :
    List (Char × List Country) :=
  if buckets.any (fun b => b.1 == c.initial) then
    buckets.map (fun b => if b.1 == c.initial then (b.1, b.2 ++ [c]) else b)
  else buckets ++ [(c.initial, [c])]

/-- `letterBuckets` built from the country catalog. -/
def buildBuckets (catalog : List Country) : List (Char × List Country) :=
  catalog.foldl addToBuckets []

/-- One insertion step of the stable descending-by-bucket-size sort
(`.sort((a, b) => b[1].length - a[1].length)` — JS `Array.sort` is stable). -/
def insertDesc (e : Char × List Country) :
    List (Char × List Country) → List (Char × List Country)
  | [] => [e]
  | f :: fs => if f.2.length ≤ e.2.length then e :: f :: fs else f :: insertDesc e fs

/-- Stable sort of the bucket entries, largest bucket first. -/
def sortBucketsDesc : List (Char × List Country) → List (Char × List Country)
  | [] => []
  | e :: es => insertDesc e (sortBucketsDesc es)

/-- The value returned by `pickTargetRound`. -/
structure RoundPick where
  targetLetter : Char
  countries : List Country
  requiredCount : ℚ
deriving DecidableEq, Repr

/-- `pickTargetRound()`: buckets the catalog by initial, drops empty buckets,
sorts descending by size, then draws `pool[Math.floor(Math.random() *
pool.length)]` where `pool = entries`; the random draw is modelled by the
index `k % pool.length`. -/
def pickTargetRound (cfg : GameConfig) (catalog : List Country) (k : Nat) :
    Option RoundPick :=
  let letterBuckets := buildBuckets catalog
  let entries := sortBucketsDesc (letterBuckets.filter (fun e => 0 < e.2.length))
  match entries with
  | [] => none
  | e :: es =>
    let pool := e :: es
    let pick := pool.getD (k % pool.length) e
    some { targetLetter := pick.1, countries := pick.2
           requiredCount := min cfg.maxTargetCount (pick.2.length : ℚ) }

/-- `startRound()` (state part): pick a round; on `null` fall back to
`resetRoundState`, otherwise install the running round.  The interval timer
itself is external; its tick body is `countdownTick`. -/
def startRound (cfg : GameConfig) (catalog : List Country) (k : Nat)
    (s : GameState) : GameState :=
  match pickTargetRound cfg catalog k with
  | none => resetRoundState cfg s
  | some round =>
    { s with
      active := true, status := .running,
      targetLetter := some round.targetLetter,
      requiredCount := round.requiredCount,
      targetCountryIds := round.countries.map Country.id,
      foundCountryIds := [], score := 0, streak := 0, bestStreak := 0,
      foundCount := 0, timeRemaining := cfg.roundSeconds }

/-- `resetRound()`: reports whether there was anything to reset, then resets. -/
def resetRound (cfg : GameConfig) (s : GameState) : Bool × GameState :=
  let hadRoundState :=
    s.active || decide (s.status ≠ .idle) || decide (0 < s.foundCountryIds.length)
      || decide (0 < s.score)
  (hadRoundState, resetRoundState cfg s)

/-- `updateBestScore()`: raise the recorded best to the rounded current score
when it exceeds the rounded previous best. -/
def updateBestScore (s : GameState) : GameState :=
  let currentScore := max 0 ((round s.score : ℤ) : ℚ)
  let previousBest := max 0 ((round s.bestScore : ℤ) : ℚ)
  if currentScore ≤ previousBest then s
  else { s with bestScore := currentScore }

/-- The countdown tick body (`window.setInterval` callback in `startRound`):
decrement `timeRemaining`; at 0 force `Lost`, freeze the streak at 0 and stop
the timer.  A stopped timer is modelled by the `active` guard: ticking an
inactive state is the identity. -/
def countdownTick (s : GameState) : GameState :=
  if s.active = false then s
  else
    let nextTime := max 0 (s.timeRemaining - 1)
    if nextTime ≤ 0 then
      { s with timeRemaining := nextTime, active := false, status := .lost, streak := 0 }
    else { s with timeRemaining := nextTime }

/-- `processCountryGuess({countryId, countryName})` (only the state change;
messages are outside the model). -/
def processCountryGuess (cfg : GameConfig) (s : GameState) (countryId : String) :
    GameState :=
  if s.active = false then s
  else if countryId = "" ∨ countryId ∉ s.targetCountryIds then
    { s with streak := 0, score := max 0 (s.score - cfg.wrongPenalty) }
  else if countryId ∈ s.foundCountryIds then s
  else
    let streak := s.streak + 1
    let points := cfg.correctScore + max 0 ((streak : ℚ) - 1) * cfg.streakBonus
    let s1 := updateBestScore
      { s with
        foundCountryIds := s.foundCountryIds ++ [countryId],
        foundCount := s.foundCount + 1, streak := streak,
        bestStreak := max s.bestStreak streak,
        score := s.score + points }
    if (s1.foundCount : ℚ) ≥ s1.requiredCount then
      let timeBonus : ℚ := ((round (max 0 s1.timeRemaining * cfg.winTimeBonusPerSecond) : ℤ) : ℚ)
      updateBestScore
        { s1 with score := s1.score + timeBonus, active := false, status := .won }
    else s1

/-! ### Statement-support definitions -/

/-- A user navigation operation: a zoom-around-point request or a pan drag. -/
inductive NavOp where
  | zoomAround (z : ℚ) (p : Pan)
  | pan (dx dy : ℚ)
deriving DecidableEq, Repr

/-- Apply one navigation operation to the view state. -/
def navStep (cfg : NavConfig) (s : ViewState) : NavOp → ViewState
  | .zoomAround z p => (zoomAroundPoint cfg s z p).2
  | .pan dx dy => (panBy cfg s dx dy).2

/-- The clamp invariant of the view transform: at `zoom ≤ 1` the pan is
exactly `(0,0)`; at `zoom > 1` each axis lies within
`[viewportSize*(1-zoom) - panPadding, panPadding]`. -/
def panClampInv (cfg : NavConfig) (s : ViewState) : Prop :=
  if s.zoom ≤ 1 then s.pan = ⟨0, 0⟩
  else
    (viewportWidth cfg * (1 - s.zoom) - cfg.panPadding ≤ s.pan.x ∧
      s.pan.x ≤ cfg.panPadding) ∧
    (viewportHeight cfg * (1 - s.zoom) - cfg.panPadding ≤ s.pan.y ∧
      s.pan.y ≤ cfg.panPadding)

/-- The view state produced by a non-no-op `zoomAroundPoint` call: the
clamped zoom, and the pan `screenPoint - r * (screenPoint - oldPan)` (with
`r = newZoom/oldZoom`) clamped for the new zoom. -/
def zoomChanged (cfg : NavConfig) (s : ViewState) (z : ℚ) (p : Pan) : ViewState :=
  ⟨clamp z cfg.minZoom cfg.maxZoom,
    clampPan
      ⟨p.x - clamp z cfg.minZoom cfg.maxZoom / zoomOr1 s.zoom * (p.x - s.pan.x),
       p.y - clamp z cfg.minZoom cfg.maxZoom / zoomOr1 s.zoom * (p.y - s.pan.y)⟩
      (clamp z cfg.minZoom cfg.maxZoom) (viewportWidth cfg) (viewportHeight cfg)
      cfg.panPadding⟩

/-- A wholly missing/non-numeric raw configuration (every entry defaults). -/
def rawDefault : RawConfig :=
  ⟨none, none, none, none, none, none, none, none, none, none, none⟩

/-- A raw configuration with a negative `minZoom` (accepted unchanged by
`setupMapNavigation`, which never clamps `minZoom` from below). -/
def rawNegativeMinZoom : RawConfig :=
  ⟨some (-2), some 8, none, none, some 0, none, none, none, none, none, none⟩

/-- One in-round game event: a processed guess or a countdown tick. -/
inductive RoundStep where
  | guess (countryId : String)
  | tick
deriving DecidableEq, Repr

/-- Apply one in-round event to the game state. -/
def roundStep (cfg : GameConfig) (s : GameState) : RoundStep → GameState
  | .guess countryId => processCountryGuess cfg s countryId
  | .tick => countdownTick s

/-- A guess that passes `processCountryGuess`'s target test
(`countryId && state.gameTargetCountryIds[countryId]`). -/
def isTargetGuess (s : GameState) (countryId : String) : Prop :=
  countryId ≠ "" ∧ countryId ∈ s.targetCountryIds

instance (s : GameState) (countryId : String) : Decidable (isTargetGuess s countryId) :=
  inferInstanceAs (Decidable (_ ∧ _))

/-- A sample running round used by concrete witnesses. -/
def exRunning : GameState :=
  { active := true, status := .running, targetLetter := some 'a'
    requiredCount := 1, targetCountryIds := ["004", "008"]
    foundCountryIds := [], score := 0, streak := 0, bestStreak := 0
    bestScore := 0, foundCount := 0, timeRemaining := 120 }

/-! ## Helper lemmas -/

theorem clamp_le_hi (v lo hi : ℚ) : clamp v lo hi ≤ hi := min_le_left _ _

theorem lo_le_clamp (v : ℚ) {lo hi : ℚ} (h : lo ≤ hi) : lo ≤ clamp v lo hi :=
  le_min h (le_max_left _ _)

theorem viewportWidth_pos (cfg : NavConfig) : 0 < viewportWidth cfg :=
  lt_of_lt_of_le (by norm_num) (le_max_left 320 cfg.clientWidth)

theorem viewportHeight_pos (cfg : NavConfig) : 0 < viewportHeight cfg :=
  lt_of_lt_of_le (by norm_num) (le_max_left 200 cfg.clientHeight)

theorem clampPan_of_zoom_le (p : Pan) {z : ℚ} (w h pad : ℚ) (hz : z ≤ 1) :
    clampPan p z w h pad = ⟨0, 0⟩ := if_pos hz

theorem clampPan_bounds (p : Pan) {z w h pad : ℚ} (hz : 1 < z) (hpad : 0 ≤ pad)
    (hw : 0 < w) (hh : 0 < h) :
    (w * (1 - z) - pad ≤ (clampPan p z w h pad).x ∧ (clampPan p z w h pad).x ≤ pad) ∧
    (h * (1 - z) - pad ≤ (clampPan p z w h pad).y ∧ (clampPan p z w h pad).y ≤ pad) := by
  have hle : ¬ z ≤ 1 := not_le.mpr hz
  have hwz : w * (1 - z) ≤ 0 := by nlinarith
  have hhz : h * (1 - z) ≤ 0 := by nlinarith
  simp only [clampPan, if_neg hle]
  exact ⟨⟨lo_le_clamp _ (by linarith), clamp_le_hi _ _ _⟩,
    ⟨lo_le_clamp _ (by linarith), clamp_le_hi _ _ _⟩⟩

/-! ## Claim theorems -/

theorem zoomAroundPoint_of_lt (cfg : NavConfig) (s : ViewState) (z : ℚ) (p : Pan)
    (h : |clamp z cfg.minZoom cfg.maxZoom - zoomOr1 s.zoom| < 1/10000) :
    zoomAroundPoint cfg s z p = (false, s) := by
  simp only [zoomAroundPoint]
  rw [if_pos h]

theorem zoomAroundPoint_of_ge (cfg : NavConfig) (s : ViewState) (z : ℚ) (p : Pan)
    (h : ¬ |clamp z cfg.minZoom cfg.maxZoom - zoomOr1 s.zoom| < 1/10000) :
    zoomAroundPoint cfg s z p = (true, zoomChanged cfg s z p) := by
  simp only [zoomAroundPoint, zoomChanged]
  rw [if_neg h]

/-- C1: `zoomAroundPoint(targetZoom, screenPoint)` clamps `targetZoom` to
`[minZoom, maxZoom]`; if the clamped value differs from the current zoom by
less than the epsilon `1/10000` it is a no-op returning `false`; otherwise,
with `r = newZoom/oldZoom`, it sets the new pan to
`screenPoint - r * (screenPoint - oldPan)` before clamping (`zoomChanged`).
In particular, for a viewport of 800×600 with `minZoom = 1`, `maxZoom = 8`
and `panPadding ≥ 0`, starting from `zoom = 1`, `pan = (0,0)`,
`zoomAroundPoint(1.2, {x:400, y:300})` returns `true` and leaves
`zoom = 1.2` and `pan = (-80, -60)`. -/
theorem zoomAroundPoint_correct :
    (∀ (cfg : NavConfig) (s : ViewState) (z : ℚ) (p : Pan),
      (|clamp z cfg.minZoom cfg.maxZoom - zoomOr1 s.zoom| < 1/10000 →
        zoomAroundPoint cfg s z p = (false, s)) ∧
      (1/10000 ≤ |clamp z cfg.minZoom cfg.maxZoom - zoomOr1 s.zoom| →
        zoomAroundPoint cfg s z p = (true, zoomChanged cfg s z p)) ∧
      (cfg.minZoom ≤ cfg.maxZoom →
        cfg.minZoom ≤ clamp z cfg.minZoom cfg.maxZoom ∧
        clamp z cfg.minZoom cfg.maxZoom ≤ cfg.maxZoom)) ∧
    ∀ pad : ℚ, 0 ≤ pad →
      zoomAroundPoint ⟨1, 8, 6/5, 3/20, pad, 800, 600⟩ ⟨1, ⟨0, 0⟩⟩ (6/5) ⟨400, 300⟩ =
        (true, ⟨6/5, ⟨-80, -60⟩⟩) := by
  constructor
  · intro cfg s z p
    exact ⟨zoomAroundPoint_of_lt cfg s z p,
      fun h => zoomAroundPoint_of_ge cfg s z p (not_lt.mpr h),
      fun h => ⟨lo_le_clamp _ h, clamp_le_hi _ _ _⟩⟩
  · intro pad hpad
    have hz : clamp (6/5 : ℚ) 1 8 = 6/5 := by
      simp only [clamp]
      norm_num
    have hcond : ¬ |clamp (6/5 : ℚ) 1 8 - zoomOr1 1| < 1/10000 := by
      rw [hz]
      simp only [zoomOr1]
      norm_num
      rw [abs_of_pos (by norm_num : (0 : ℚ) < 1/5)]
      norm_num
    rw [zoomAroundPoint_of_ge ⟨1, 8, 6/5, 3/20, pad, 800, 600⟩
      ⟨1, ⟨0, 0⟩⟩ (6/5) ⟨400, 300⟩ hcond]
    simp only [zoomChanged, viewportWidth, viewportHeight, hz, zoomOr1, clampPan]
    norm_num
    constructor
    · show clamp (-80) (-160 - pad) pad = -80
      simp only [clamp]
      rw [max_eq_right (by linarith), min_eq_right (by linarith)]
    · show clamp (-60) (-120 - pad) pad = -60
      simp only [clamp]
      rw [max_eq_right (by linarith), min_eq_right (by linarith)]

/-- C1 witness: the end-to-end zoom scenario at `panPadding = 0`. -/
theorem zoomAroundPoint_correct_witness :
    zoomAroundPoint ⟨1, 8, 6/5, 3/20, 0, 800, 600⟩ ⟨1, ⟨0, 0⟩⟩ (6/5) ⟨400, 300⟩ =
      (true, ⟨6/5, ⟨-80, -60⟩⟩) :=
  zoomAroundPoint_correct.2 0 (le_refl 0)

/-- C9 (amended): a second `zoomAroundPoint(z, p)` call with the same
arguments always leaves the view state unchanged, and — provided the clamped
target zoom is nonzero, which is always the case when the effective
`minZoom` is positive — it also returns `false`.  (With a negative
configured `minZoom` a clamped zoom of exactly `0` is representable, and
there the `Number(state.zoom) || 1` coercion makes the second call return
`true`; see the counterexample.) -/
theorem zoomAroundPoint_idempotent (cfg : NavConfig) (s : ViewState) (z : ℚ) (p : Pan) :
    (zoomAroundPoint cfg (zoomAroundPoint cfg s z p).2 z p).2 =
      (zoomAroundPoint cfg s z p).2 ∧
    (clamp z cfg.minZoom cfg.maxZoom ≠ 0 →
      zoomAroundPoint cfg (zoomAroundPoint cfg s z p).2 z p =
        (false, (zoomAroundPoint cfg s z p).2)) := by
  by_cases h : |clamp z cfg.minZoom cfg.maxZoom - zoomOr1 s.zoom| < 1/10000
  · have h1 := zoomAroundPoint_of_lt cfg s z p h
    have hs : (zoomAroundPoint cfg s z p).2 = s := by rw [h1]
    rw [hs]
    exact ⟨hs, fun _ => h1⟩
  · have h1 := zoomAroundPoint_of_ge cfg s z p h
    have hs : (zoomAroundPoint cfg s z p).2 = zoomChanged cfg s z p := by rw [h1]
    rw [hs]
    by_cases hc : clamp z cfg.minZoom cfg.maxZoom = 0
    · have hcond : ¬ |clamp z cfg.minZoom cfg.maxZoom -
          zoomOr1 (zoomChanged cfg s z p).zoom| < 1/10000 := by
        show ¬ |clamp z cfg.minZoom cfg.maxZoom -
          zoomOr1 (clamp z cfg.minZoom cfg.maxZoom)| < 1/10000
        rw [hc]
        simp only [zoomOr1, if_pos rfl]
        norm_num
      have h2 := zoomAroundPoint_of_ge cfg (zoomChanged cfg s z p) z p hcond
      have hle : clamp z cfg.minZoom cfg.maxZoom ≤ 1 := by
        rw [hc]
        norm_num
      refine ⟨?_, fun hne => absurd hc hne⟩
      rw [h2]
      show zoomChanged cfg (zoomChanged cfg s z p) z p = zoomChanged cfg s z p
      unfold zoomChanged
      rw [clampPan_of_zoom_le _ _ _ _ hle, clampPan_of_zoom_le _ _ _ _ hle]
    · have hcond : |clamp z cfg.minZoom cfg.maxZoom -
          zoomOr1 (zoomChanged cfg s z p).zoom| < 1/10000 := by
        show |clamp z cfg.minZoom cfg.maxZoom -
          zoomOr1 (clamp z cfg.minZoom cfg.maxZoom)| < 1/10000
        simp only [zoomOr1, if_neg hc]
        norm_num
      have h2 := zoomAroundPoint_of_lt cfg (zoomChanged cfg s z p) z p hcond
      rw [h2]
      exact ⟨rfl, fun _ => rfl⟩

/-- C9 witness: two identical calls from the default state under the default
configuration: the second returns `false` and changes nothing. -/
theorem zoomAroundPoint_idempotent_witness :
    zoomAroundPoint (setupNavConfig rawDefault 800 600)
        (zoomAroundPoint (setupNavConfig rawDefault 800 600) ⟨1, ⟨0, 0⟩⟩ (6/5) ⟨400, 300⟩).2
        (6/5) ⟨400, 300⟩ =
      (false,
        (zoomAroundPoint (setupNavConfig rawDefault 800 600) ⟨1, ⟨0, 0⟩⟩ (6/5) ⟨400, 300⟩).2) :=
  (zoomAroundPoint_idempotent _ _ _ _).2 (by
    simp only [setupNavConfig, rawDefault, numOr, clamp]
    norm_num)

/-- C9 counterexample: with the configured `minZoom = -2` (kept as-is by
`setupMapNavigation`) and target zoom `0`, the first call moves the state to
`zoom = 0`; the `Number(state.zoom) || 1` coercion then makes the second
identical call return `true`, not `false` (the state itself still does not
change). -/
theorem zoomAroundPoint_idempotent_counterexample :
    (zoomAroundPoint (setupNavConfig rawNegativeMinZoom 800 600)
        (zoomAroundPoint (setupNavConfig rawNegativeMinZoom 800 600)
          ⟨1, ⟨0, 0⟩⟩ 0 ⟨0, 0⟩).2 0 ⟨0, 0⟩).1 = true := by
  have hcfg : setupNavConfig rawNegativeMinZoom 800 600 =
      ⟨-2, 8, 6/5, 3/20, 0, 800, 600⟩ := by
    simp only [setupNavConfig, rawNegativeMinZoom, numOr]
    norm_num
  rw [hcfg]
  have hclamp : clamp 0 (-2 : ℚ) 8 = 0 := by
    simp only [clamp]
    norm_num
  have h1 : zoomAroundPoint ⟨-2, 8, 6/5, 3/20, 0, 800, 600⟩ ⟨1, ⟨0, 0⟩⟩ 0 ⟨0, 0⟩ =
      (true, zoomChanged ⟨-2, 8, 6/5, 3/20, 0, 800, 600⟩ ⟨1, ⟨0, 0⟩⟩ 0 ⟨0, 0⟩) := by
    apply zoomAroundPoint_of_ge
    show ¬ |clamp 0 (-2 : ℚ) 8 - zoomOr1 1| < 1/10000
    rw [hclamp]
    simp only [zoomOr1]
    norm_num
  rw [h1]
  have h2 : ¬ |clamp 0 (-2 : ℚ) 8 -
      zoomOr1 (zoomChanged ⟨-2, 8, 6/5, 3/20, 0, 800, 600⟩ ⟨1, ⟨0, 0⟩⟩ 0 ⟨0, 0⟩).zoom| <
        1/10000 := by
    show ¬ |clamp 0 (-2 : ℚ) 8 - zoomOr1 (clamp 0 (-2 : ℚ) 8)| < 1/10000
    rw [hclamp]
    simp only [zoomOr1, if_pos rfl]
    norm_num
  show (zoomAroundPoint ⟨-2, 8, 6/5, 3/20, 0, 800, 600⟩
    (zoomChanged ⟨-2, 8, 6/5, 3/20, 0, 800, 600⟩ ⟨1, ⟨0, 0⟩⟩ 0 ⟨0, 0⟩) 0 ⟨0, 0⟩).1 = true
  rw [zoomAroundPoint_of_ge ⟨-2, 8, 6/5, 3/20, 0, 800, 600⟩
    (zoomChanged ⟨-2, 8, 6/5, 3/20, 0, 800, 600⟩ ⟨1, ⟨0, 0⟩⟩ 0 ⟨0, 0⟩)
    0 ⟨0, 0⟩ h2]

theorem panClampInv_clampPan (cfg : NavConfig) (hpad : 0 ≤ cfg.panPadding)
    (q : Pan) (z : ℚ) :
    panClampInv cfg
      ⟨z, clampPan q z (viewportWidth cfg) (viewportHeight cfg) cfg.panPadding⟩ := by
  by_cases hz : z ≤ 1
  · simp only [panClampInv, if_pos hz]
    exact clampPan_of_zoom_le q _ _ _ hz
  · simp only [panClampInv, if_neg hz]
    have hb := clampPan_bounds q (not_le.mp hz) hpad
      (viewportWidth_pos cfg) (viewportHeight_pos cfg)
    exact hb

theorem navStep_preserves_inv (cfg : NavConfig) (hpad : 0 ≤ cfg.panPadding)
    {s : ViewState} (hs : panClampInv cfg s) (op : NavOp) :
    panClampInv cfg (navStep cfg s op) := by
  cases op with
  | zoomAround z p =>
    show panClampInv cfg (zoomAroundPoint cfg s z p).2
    by_cases h : |clamp z cfg.minZoom cfg.maxZoom - zoomOr1 s.zoom| < 1/10000
    · rw [zoomAroundPoint_of_lt cfg s z p h]
      exact hs
    · rw [zoomAroundPoint_of_ge cfg s z p h]
      exact panClampInv_clampPan cfg hpad _ _
  | pan dx dy =>
    show panClampInv cfg (panBy cfg s dx dy).2
    by_cases hz : zoomOr1 s.zoom ≤ 1
    · simp only [panBy]
      rw [if_pos hz]
      exact hs
    · have hz0 : s.zoom ≠ 0 := by
        intro h0
        apply hz
        simp only [zoomOr1, if_pos h0]
        norm_num
      have hzz : zoomOr1 s.zoom = s.zoom := by
        simp only [zoomOr1, if_neg hz0]
      simp only [panBy]
      rw [if_neg hz, hzz]
      exact panClampInv_clampPan cfg hpad _ _

/-- C2: for every sequence of `zoomAroundPoint` and `panBy` operations
(started from a state satisfying the clamp invariant — in particular from
the engine's initial `zoom = 1, pan = (0,0)`), the resulting view transform
satisfies the clamp invariant: at `zoom ≤ 1` the pan is exactly `(0,0)`,
and at `zoom > 1` each pan axis lies within
`[viewportSize*(1-zoom) - panPadding, panPadding]`. -/
theorem clampInvariant_all_ops (cfg : NavConfig) (hpad : 0 ≤ cfg.panPadding) :
    (∀ s : ViewState, panClampInv cfg s →
      ∀ ops : List NavOp, panClampInv cfg (ops.foldl (navStep cfg) s)) ∧
    ∀ ops : List NavOp, panClampInv cfg (ops.foldl (navStep cfg) ⟨1, ⟨0, 0⟩⟩) := by
  have hfold : ∀ (ops : List NavOp) (s : ViewState), panClampInv cfg s →
      panClampInv cfg (ops.foldl (navStep cfg) s) := by
    intro ops
    induction ops with
    | nil => exact fun s hs => hs
    | cons op rest ih =>
      intro s hs
      exact ih _ (navStep_preserves_inv cfg hpad hs op)
  have h0 : panClampInv cfg (⟨1, ⟨0, 0⟩⟩ : ViewState) := by
    simp [panClampInv]
  exact ⟨fun s hs ops => hfold ops s hs, fun ops => hfold ops _ h0⟩

/-- C2 witness: a concrete zoom-then-drag sequence under a concrete
configuration keeps the invariant. -/
theorem clampInvariant_all_ops_witness :
    panClampInv ⟨1, 8, 6/5, 3/20, 0, 800, 600⟩
      ([NavOp.zoomAround 2 ⟨400, 300⟩, NavOp.pan 10 (-5)].foldl
        (navStep ⟨1, 8, 6/5, 3/20, 0, 800, 600⟩) ⟨1, ⟨0, 0⟩⟩) :=
  (clampInvariant_all_ops ⟨1, 8, 6/5, 3/20, 0, 800, 600⟩ (by norm_num)).2 _

/-- C10: `setupGameMode` and `setupMapNavigation` coerce every configuration
input into safe effective values before use — for every raw configuration
(including missing, non-numeric, zero, or out-of-range entries):
`roundSeconds ≥ 15`, `maxTargetCount ≥ 1`, `correctScore ≥ 1`,
`wrongPenalty ≥ 0`, `streakBonus ≥ 0`, `winTimeBonusPerSecond ≥ 0`,
`maxZoom ≥ minZoom`, `zoomStep ≥ 1.01`, `wheelZoomStep ≥ 0.01`,
`panPadding ≥ 0`. -/
theorem config_coercion_bounds (raw : RawConfig) (clientWidth clientHeight : ℚ) :
    15 ≤ (setupGameConfig raw).roundSeconds ∧
    1 ≤ (setupGameConfig raw).maxTargetCount ∧
    1 ≤ (setupGameConfig raw).correctScore ∧
    0 ≤ (setupGameConfig raw).wrongPenalty ∧
    0 ≤ (setupGameConfig raw).streakBonus ∧
    0 ≤ (setupGameConfig raw).winTimeBonusPerSecond ∧
    (setupNavConfig raw clientWidth clientHeight).minZoom ≤
      (setupNavConfig raw clientWidth clientHeight).maxZoom ∧
    101/100 ≤ (setupNavConfig raw clientWidth clientHeight).zoomStep ∧
    1/100 ≤ (setupNavConfig raw clientWidth clientHeight).wheelZoomStep ∧
    0 ≤ (setupNavConfig raw clientWidth clientHeight).panPadding :=
  ⟨le_max_left _ _, le_max_left _ _, le_max_left _ _, le_max_left _ _,
    le_max_left _ _, le_max_left _ _, le_max_left _ _, le_max_left _ _,
    le_max_left _ _, le_max_left _ _⟩

theorem lookup_append_singleton (colors : List (Char × String)) (c : Char) (v : String)
    (h : ∀ p ∈ colors, p.1 ≠ c) : (colors ++ [(c, v)]).lookup c = some v := by
  induction colors with
  | nil => simp [List.lookup]
  | cons p ps ih =>
    have hcp : (c == p.1) = false :=
      beq_eq_false_iff_ne.mpr (Ne.symm (h p (by simp)))
    rw [List.cons_append]
    rw [show p = (p.1, p.2) from rfl, List.lookup_cons, hcp]
    exact ih fun q hq => h q (by simp [hq])

theorem lookup_map_overwrite (colors : List (Char × String)) (c : Char) (v : String)
    (h : (colors.any fun q => q.1 == c) = true) :
    (colors.map fun p => if p.1 == c then (c, v) else p).lookup c = some v := by
  induction colors with
  | nil => simp at h
  | cons p ps ih =>
    rw [List.map_cons]
    by_cases hp : (p.1 == c) = true
    · rw [if_pos hp, List.lookup_cons, beq_self_eq_true]
    · have hp' : (p.1 == c) = false := eq_false_of_ne_true hp
      have hcp : (c == p.1) = false := by
        rw [beq_eq_false_iff_ne] at hp' ⊢
        exact Ne.symm hp'
      rw [if_neg (by simp [hp']), show p = (p.1, p.2) from rfl, List.lookup_cons, hcp]
      apply ih
      rw [List.any_cons, hp', Bool.false_or] at h
      exact h

theorem lookup_setColor (colors : List (Char × String)) (c : Char) (v : String) :
    (setColor colors c v).lookup c = some v := by
  by_cases h : (colors.any fun q => q.1 == c) = true
  · rw [setColor, if_pos h]
    exact lookup_map_overwrite colors c v h
  · rw [setColor, if_neg h]
    apply lookup_append_singleton
    intro p hp hpc
    exact h (List.any_eq_true.mpr ⟨p, hp, by simp [hpc]⟩)

theorem addInitial_cases (palette : List String) (s : HighlightState) (input : String) :
    (∃ c, (lowerString input).data = [c] ∧ ('a' ≤ c && c ≤ 'z') = true ∧
      colorAt s c = "" ∧
      addInitial palette s input =
        (true, ⟨setColor s.initialColors c
            (palette.getD (s.colorCursor % palette.length) ""),
          s.colorCursor + 1, some c⟩)) ∨
    (addInitial palette s input = (false, s) ∧
      ¬ ∃ c, (lowerString input).data = [c] ∧ ('a' ≤ c && c ≤ 'z') = true ∧
        colorAt s c = "") := by
  rcases hd : (lowerString input).data with _ | ⟨c, tl⟩
  · right
    refine ⟨by simp [addInitial, hd], ?_⟩
    rintro ⟨c, hc, -, -⟩
    exact List.noConfusion hc
  · cases tl with
    | nil =>
      by_cases h1 : ('a' ≤ c && c ≤ 'z') = true
      · by_cases h2 : colorAt s c = ""
        · left
          exact ⟨c, rfl, h1, h2, by simp [addInitial, hd, h1, h2]⟩
        · right
          refine ⟨by simp [addInitial, hd, h1, h2], ?_⟩
          rintro ⟨c2, hc2, -, h4⟩
          obtain rfl : c = c2 := by simpa using hc2
          exact h2 h4
      · right
        have h1' : ('a' ≤ c && c ≤ 'z') = false := eq_false_of_ne_true h1
        refine ⟨by simp [addInitial, hd, h1'], ?_⟩
        rintro ⟨c2, hc2, h3, -⟩
        obtain rfl : c = c2 := by simpa using hc2
        exact h1 h3
    | cons c2 tl2 =>
      right
      refine ⟨by simp [addInitial, hd], ?_⟩
      rintro ⟨c3, hc3, -, -⟩
      simp at hc3

theorem testSingleLowercase_iff (str : String) :
    testSingleLowercase str = true ↔
      ∃ c, str.data = [c] ∧ ('a' ≤ c && c ≤ 'z') = true := by
  unfold testSingleLowercase
  rcases hd : str.data with _ | ⟨c, _ | ⟨c2, tl⟩⟩ <;> simp [hd]

/-- C7: highlight colors are assigned by insertion order through the palette
cycle: every successful `addInitial` assigns `palette[cursor % length]` to
the added letter and advances the cursor by exactly 1; a failed call leaves
the state unchanged, and `removeInitial` never moves the cursor — so a
removed and re-added letter receives the next cursor slot, not its original
color.  Concretely, with palette `["red","blue"]`, adding `a, b, c` yields
`{a: red, b: blue, c: red}` with cursor 3. -/
theorem palette_cycling :
    (∀ (palette : List String) (s : HighlightState) (input : String),
      ((addInitial palette s input).1 = true →
        (addInitial palette s input).2.colorCursor = s.colorCursor + 1 ∧
        ∃ c, (lowerString input).data = [c] ∧
          colorAt (addInitial palette s input).2 c =
            palette.getD (s.colorCursor % palette.length) "") ∧
      ((addInitial palette s input).1 = false →
        (addInitial palette s input).2 = s) ∧
      (removeInitial s input).2.colorCursor = s.colorCursor) ∧
    ["a", "b", "c"].foldl (fun t i => (addInitial ["red", "blue"] t i).2)
        emptyHighlight =
      ⟨[('a', "red"), ('b', "blue"), ('c', "red")], 3, some 'c'⟩ := by
  constructor
  · intro palette s input
    refine ⟨?_, ?_, ?_⟩
    · intro h
      rcases addInitial_cases palette s input with ⟨c, hc, h1, h2, heq⟩ | ⟨heq, -⟩
      · rw [heq]
        refine ⟨rfl, c, hc, ?_⟩
        show ((setColor s.initialColors c _).lookup c).getD "" = _
        rw [lookup_setColor]
        rfl
      · rw [heq] at h
        cases h
    · intro h
      rcases addInitial_cases palette s input with ⟨c, hc, h1, h2, heq⟩ | ⟨heq, -⟩
      · rw [heq] at h
        cases h
      · rw [heq]
    · rcases hd : (lowerString input).data with _ | ⟨c, tl⟩
      · simp [removeInitial, hd]
      · cases tl with
        | nil =>
          by_cases h2 : colorAt s c = ""
          · simp [removeInitial, hd, h2]
          · simp [removeInitial, hd, h2]
        | cons c2 tl2 => simp [removeInitial, hd]
  · decide

/-- C7 witness: the first add from the empty state succeeds and moves the
cursor from 0 to 1. -/
theorem palette_cycling_witness :
    (addInitial ["red", "blue"] emptyHighlight "a").1 = true ∧
    (addInitial ["red", "blue"] emptyHighlight "a").2.colorCursor =
      emptyHighlight.colorCursor + 1 :=
  ⟨by decide, ((palette_cycling.1 ["red", "blue"] emptyHighlight "a").1 (by decide)).1⟩

/-- C8 (amended): `addInitial` accepts exactly those inputs whose
JS-lowercased form is a single letter `a`–`z` that is not already active;
every other input — and every already-active letter — returns `false` with
the highlight state unchanged.  (The claim as stated is false: the code
lowercases *before* validating, so a single *uppercase* letter such as
`"A"` is also accepted, as its lowercase; see the counterexample.) -/
theorem addInitial_validation (palette : List String) (s : HighlightState)
    (input : String) :
    (testSingleLowercase (lowerString input) = false →
      addInitial palette s input = (false, s)) ∧
    (∀ c, (lowerString input).data = [c] → colorAt s c ≠ "" →
      addInitial palette s input = (false, s)) ∧
    ((addInitial palette s input).1 = true ↔
      (testSingleLowercase (lowerString input) = true ∧
        ∀ c, (lowerString input).data = [c] → colorAt s c = "")) := by
  refine ⟨?_, ?_, ?_⟩
  · intro htest
    rcases addInitial_cases palette s input with ⟨c, hc, h1, h2, heq⟩ | ⟨heq, -⟩
    · have : testSingleLowercase (lowerString input) = true :=
        (testSingleLowercase_iff _).mpr ⟨c, hc, h1⟩
      rw [this] at htest
      cases htest
    · exact heq
  · intro c hc hcol
    rcases addInitial_cases palette s input with ⟨c2, hc2, h1, h2, heq⟩ | ⟨heq, -⟩
    · rw [hc] at hc2
      obtain rfl : c = c2 := by simpa using hc2
      exact absurd h2 hcol
    · exact heq
  · constructor
    · intro h
      rcases addInitial_cases palette s input with ⟨c, hc, h1, h2, heq⟩ | ⟨heq, -⟩
      · refine ⟨(testSingleLowercase_iff _).mpr ⟨c, hc, h1⟩, ?_⟩
        intro c2 hc2
        rw [hc] at hc2
        obtain rfl : c = c2 := by simpa using hc2
        exact h2
      · rw [heq] at h
        cases h
    · rintro ⟨htest, hfree⟩
      rcases addInitial_cases palette s input with ⟨c, hc, h1, h2, heq⟩ | ⟨heq, hnone⟩
      · rw [heq]
      · obtain ⟨c, hc, h1⟩ := (testSingleLowercase_iff _).mp htest
        exact absurd ⟨c, hc, h1, hfree c hc⟩ hnone

/-- C8 witness: an already-active letter is rejected with no state change. -/
theorem addInitial_validation_witness :
    colorAt ⟨[('a', "red")], 1, some 'a'⟩ 'a' ≠ "" ∧
    addInitial ["red", "blue"] ⟨[('a', "red")], 1, some 'a'⟩ "a" =
      (false, ⟨[('a', "red")], 1, some 'a'⟩) :=
  ⟨by decide,
    (addInitial_validation ["red", "blue"] ⟨[('a', "red")], 1, some 'a'⟩ "a").2.1 'a'
      (by decide) (by decide)⟩

/-- C8 counterexample: the input `"A"` is not a single lowercase letter
`a`–`z`, yet `addInitial("A")` on the empty highlight state returns `true`
(the code lowercases before validating), contradicting the claim that every
non-single-lowercase-letter input returns `false`. -/
theorem addInitial_validation_counterexample :
    (addInitial ["red", "blue"] emptyHighlight "A").1 = true ∧
    testSingleLowercase "A" = false := by decide

@[simp] theorem updateBestScore_score (s : GameState) :
    (updateBestScore s).score = s.score := by
  unfold updateBestScore
  dsimp only
  split <;> rfl

@[simp] theorem updateBestScore_active (s : GameState) :
    (updateBestScore s).active = s.active := by
  unfold updateBestScore
  dsimp only
  split <;> rfl

@[simp] theorem updateBestScore_status (s : GameState) :
    (updateBestScore s).status = s.status := by
  unfold updateBestScore
  dsimp only
  split <;> rfl

@[simp] theorem updateBestScore_requiredCount (s : GameState) :
    (updateBestScore s).requiredCount = s.requiredCount := by
  unfold updateBestScore
  dsimp only
  split <;> rfl

@[simp] theorem updateBestScore_targetCountryIds (s : GameState) :
    (updateBestScore s).targetCountryIds = s.targetCountryIds := by
  unfold updateBestScore
  dsimp only
  split <;> rfl

@[simp] theorem updateBestScore_foundCountryIds (s : GameState) :
    (updateBestScore s).foundCountryIds = s.foundCountryIds := by
  unfold updateBestScore
  dsimp only
  split <;> rfl

@[simp] theorem updateBestScore_foundCount (s : GameState) :
    (updateBestScore s).foundCount = s.foundCount := by
  unfold updateBestScore
  dsimp only
  split <;> rfl

@[simp] theorem updateBestScore_streak (s : GameState) :
    (updateBestScore s).streak = s.streak := by
  unfold updateBestScore
  dsimp only
  split <;> rfl

@[simp] theorem updateBestScore_timeRemaining (s : GameState) :
    (updateBestScore s).timeRemaining = s.timeRemaining := by
  unfold updateBestScore
  dsimp only
  split <;> rfl

theorem round_cast_nonneg {x : ℚ} (hx : 0 ≤ x) : (0 : ℚ) ≤ ((round x : ℤ) : ℚ) := by
  have h : (0 : ℤ) ≤ round x := by
    rw [round_eq]
    exact Int.floor_nonneg.mpr (by linarith)
  exact_mod_cast h

theorem processCountryGuess_inactive (cfg : GameConfig) {s : GameState}
    (h : s.active = false) (id : String) : processCountryGuess cfg s id = s := by
  unfold processCountryGuess
  rw [if_pos h]

theorem processCountryGuess_wrong (cfg : GameConfig) {s : GameState} {id : String}
    (h1 : s.active = true) (h2 : id = "" ∨ id ∉ s.targetCountryIds) :
    processCountryGuess cfg s id =
      { s with streak := 0, score := max 0 (s.score - cfg.wrongPenalty) } := by
  unfold processCountryGuess
  rw [if_neg (by simp [h1]), if_pos h2]

theorem processCountryGuess_already (cfg : GameConfig) {s : GameState} {id : String}
    (h1 : s.active = true) (h2 : ¬ (id = "" ∨ id ∉ s.targetCountryIds))
    (h3 : id ∈ s.foundCountryIds) : processCountryGuess cfg s id = s := by
  unfold processCountryGuess
  rw [if_neg (by simp [h1]), if_neg h2, if_pos h3]

theorem processCountryGuess_new_facts (cfg : GameConfig) {s : GameState} {id : String}
    (h1 : s.active = true) (h2 : ¬ (id = "" ∨ id ∉ s.targetCountryIds))
    (h3 : id ∉ s.foundCountryIds) :
    (processCountryGuess cfg s id).foundCountryIds = s.foundCountryIds ++ [id] ∧
    (processCountryGuess cfg s id).targetCountryIds = s.targetCountryIds ∧
    (processCountryGuess cfg s id).score =
      s.score + (cfg.correctScore + max 0 (((s.streak + 1 : Nat) : ℚ) - 1) * cfg.streakBonus) +
        (if ((s.foundCount + 1 : Nat) : ℚ) ≥ s.requiredCount then
          ((round (max 0 s.timeRemaining * cfg.winTimeBonusPerSecond) : ℤ) : ℚ)
        else 0) ∧
    (((s.foundCount + 1 : Nat) : ℚ) ≥ s.requiredCount →
      (processCountryGuess cfg s id).status = .won ∧
      (processCountryGuess cfg s id).active = false) := by
  unfold processCountryGuess
  rw [if_neg (by simp [h1]), if_neg h2, if_neg h3]
  dsimp only
  simp only [updateBestScore_score, updateBestScore_foundCount,
    updateBestScore_requiredCount, updateBestScore_timeRemaining,
    updateBestScore_foundCountryIds, updateBestScore_targetCountryIds,
    updateBestScore_active, updateBestScore_status]
  split
  case isTrue h4 =>
    simp only [updateBestScore_score, updateBestScore_foundCount,
      updateBestScore_requiredCount, updateBestScore_timeRemaining,
      updateBestScore_foundCountryIds, updateBestScore_targetCountryIds,
      updateBestScore_active, updateBestScore_status]
    exact ⟨trivial, trivial, trivial, fun _ => ⟨trivial, trivial⟩⟩
  case isFalse h4 =>
    simp only [updateBestScore_score, updateBestScore_foundCount,
      updateBestScore_requiredCount, updateBestScore_timeRemaining,
      updateBestScore_foundCountryIds, updateBestScore_targetCountryIds,
      updateBestScore_active, updateBestScore_status]
    exact ⟨trivial, trivial, by rw [add_zero], fun h => absurd h h4⟩

theorem active_true_of_not_false {s : GameState} (h : ¬ s.active = false) :
    s.active = true := by
  revert h
  cases s.active <;> simp

theorem score_nonneg_step (cfg : GameConfig) (hpen : 0 ≤ cfg.wrongPenalty)
    (hcs : 0 ≤ cfg.correctScore) (hsb : 0 ≤ cfg.streakBonus)
    (hwb : 0 ≤ cfg.winTimeBonusPerSecond) {s : GameState} (hs : 0 ≤ s.score)
    (id : String) : 0 ≤ (processCountryGuess cfg s id).score := by
  by_cases h1 : s.active = false
  · rw [processCountryGuess_inactive cfg h1]
    exact hs
  · have h1' := active_true_of_not_false h1
    by_cases h2 : id = "" ∨ id ∉ s.targetCountryIds
    · rw [processCountryGuess_wrong cfg h1' h2]
      exact le_max_left _ _
    · by_cases h3 : id ∈ s.foundCountryIds
      · rw [processCountryGuess_already cfg h1' h2 h3]
        exact hs
      · obtain ⟨-, -, hscore, -⟩ := processCountryGuess_new_facts cfg h1' h2 h3
        rw [hscore]
        have hpts : 0 ≤ cfg.correctScore +
            max 0 (((s.streak + 1 : Nat) : ℚ) - 1) * cfg.streakBonus :=
          add_nonneg hcs (mul_nonneg (le_max_left _ _) hsb)
        have htb : 0 ≤ (if ((s.foundCount + 1 : Nat) : ℚ) ≥ s.requiredCount then
            ((round (max 0 s.timeRemaining * cfg.winTimeBonusPerSecond) : ℤ) : ℚ)
          else 0) := by
          split
          · exact round_cast_nonneg (mul_nonneg (le_max_left _ _) hwb)
          · exact le_refl 0
        linarith

theorem score_nonneg_fold (cfg : GameConfig) (hpen : 0 ≤ cfg.wrongPenalty)
    (hcs : 0 ≤ cfg.correctScore) (hsb : 0 ≤ cfg.streakBonus)
    (hwb : 0 ≤ cfg.winTimeBonusPerSecond) :
    ∀ (guesses : List String) (s : GameState), 0 ≤ s.score →
      0 ≤ (guesses.foldl (processCountryGuess cfg) s).score := by
  intro guesses
  induction guesses with
  | nil => exact fun s hs => hs
  | cons g gs ih =>
    exact fun s hs => ih _ (score_nonneg_step cfg hpen hcs hsb hwb hs g)

/-- C4: under the coerced game configuration, a correct guess never
decreases the score, a wrong guess never increases it (the penalty is
floored at 0), and — along every sequence of processed guesses — the score
is never negative. -/
theorem score_monotonicity (raw : RawConfig) (s : GameState) (countryId : String)
    (hs : 0 ≤ s.score) :
    0 ≤ (processCountryGuess (setupGameConfig raw) s countryId).score ∧
    (isTargetGuess s countryId →
      s.score ≤ (processCountryGuess (setupGameConfig raw) s countryId).score) ∧
    (¬ isTargetGuess s countryId →
      (processCountryGuess (setupGameConfig raw) s countryId).score ≤ s.score) ∧
    ∀ guesses : List String,
      0 ≤ (guesses.foldl (processCountryGuess (setupGameConfig raw)) s).score := by
  have hpen : 0 ≤ (setupGameConfig raw).wrongPenalty := le_max_left _ _
  have hcs : 0 ≤ (setupGameConfig raw).correctScore :=
    le_trans zero_le_one (le_max_left _ _)
  have hsb : 0 ≤ (setupGameConfig raw).streakBonus := le_max_left _ _
  have hwb : 0 ≤ (setupGameConfig raw).winTimeBonusPerSecond := le_max_left _ _
  refine ⟨score_nonneg_step _ hpen hcs hsb hwb hs _, ?_, ?_,
    fun guesses => score_nonneg_fold _ hpen hcs hsb hwb guesses s hs⟩
  · intro hok
    by_cases h1 : s.active = false
    · rw [processCountryGuess_inactive _ h1]
    · have h1' := active_true_of_not_false h1
      have h2 : ¬ (countryId = "" ∨ countryId ∉ s.targetCountryIds) := fun h =>
        h.elim (fun he => hok.1 he) (fun hn => hn hok.2)
      by_cases h3 : countryId ∈ s.foundCountryIds
      · rw [processCountryGuess_already _ h1' h2 h3]
      · obtain ⟨-, -, hscore, -⟩ := processCountryGuess_new_facts _ h1' h2 h3
        rw [hscore]
        have hpts : 0 ≤ (setupGameConfig raw).correctScore +
            max 0 (((s.streak + 1 : Nat) : ℚ) - 1) * (setupGameConfig raw).streakBonus :=
          add_nonneg hcs (mul_nonneg (le_max_left _ _) hsb)
        have htb : 0 ≤ (if ((s.foundCount + 1 : Nat) : ℚ) ≥ s.requiredCount then
            ((round (max 0 s.timeRemaining *
              (setupGameConfig raw).winTimeBonusPerSecond) : ℤ) : ℚ)
          else 0) := by
          split
          · exact round_cast_nonneg (mul_nonneg (le_max_left _ _) hwb)
          · exact le_refl 0
        linarith
  · intro hbad
    by_cases h1 : s.active = false
    · rw [processCountryGuess_inactive _ h1]
    · have h1' := active_true_of_not_false h1
      have h2 : countryId = "" ∨ countryId ∉ s.targetCountryIds := by
        by_contra hcon
        push_neg at hcon
        exact hbad ⟨hcon.1, hcon.2⟩
      rw [processCountryGuess_wrong _ h1' h2]
      show max 0 (s.score - (setupGameConfig raw).wrongPenalty) ≤ s.score
      exact max_le hs (by linarith)

/-- C4 witness: a correct guess from the sample running round, starting at
score 0. -/
theorem score_monotonicity_witness :
    0 ≤ exRunning.score ∧
    0 ≤ (processCountryGuess (setupGameConfig rawDefault) exRunning "004").score :=
  ⟨le_refl 0, (score_monotonicity rawDefault exRunning "004" (le_refl 0)).1⟩

theorem countdownTick_found (s : GameState) :
    (countdownTick s).foundCountryIds = s.foundCountryIds := by
  unfold countdownTick
  dsimp only
  split
  · rfl
  · split <;> rfl

theorem countdownTick_target (s : GameState) :
    (countdownTick s).targetCountryIds = s.targetCountryIds := by
  unfold countdownTick
  dsimp only
  split
  · rfl
  · split <;> rfl

theorem startRound_found (cfg : GameConfig) (catalog : List Country) (k : Nat)
    (s : GameState) : (startRound cfg catalog k s).foundCountryIds = [] := by
  unfold startRound
  cases pickTargetRound cfg catalog k <;> rfl

theorem subset_step (cfg : GameConfig) {s : GameState}
    (hsub : s.foundCountryIds ⊆ s.targetCountryIds) (st : RoundStep) :
    (roundStep cfg s st).foundCountryIds ⊆ (roundStep cfg s st).targetCountryIds := by
  cases st with
  | tick =>
    show (countdownTick s).foundCountryIds ⊆ (countdownTick s).targetCountryIds
    rw [countdownTick_found, countdownTick_target]
    exact hsub
  | guess id =>
    show (processCountryGuess cfg s id).foundCountryIds ⊆
      (processCountryGuess cfg s id).targetCountryIds
    by_cases h1 : s.active = false
    · rw [processCountryGuess_inactive cfg h1]
      exact hsub
    · have h1' := active_true_of_not_false h1
      by_cases h2 : id = "" ∨ id ∉ s.targetCountryIds
      · rw [processCountryGuess_wrong cfg h1' h2]
        exact hsub
      · by_cases h3 : id ∈ s.foundCountryIds
        · rw [processCountryGuess_already cfg h1' h2 h3]
          exact hsub
        · obtain ⟨hfound, htarget, -, -⟩ := processCountryGuess_new_facts cfg h1' h2 h3
          rw [hfound, htarget]
          have hid : id ∈ s.targetCountryIds := by
            by_contra hn
            exact h2 (Or.inr hn)
          exact List.append_subset.mpr ⟨hsub, by simpa using hid⟩

/-- C5: the set of found country ids is a subset of the set of target
country ids after `startRound`, after every processed guess (from any state
satisfying the invariant), after every reset, and along every sequence of
in-round events following a `startRound`. -/
theorem found_subset_target (raw : RawConfig) :
    (∀ (catalog : List Country) (k : Nat) (s : GameState),
      (startRound (setupGameConfig raw) catalog k s).foundCountryIds ⊆
        (startRound (setupGameConfig raw) catalog k s).targetCountryIds) ∧
    (∀ s : GameState, s.foundCountryIds ⊆ s.targetCountryIds →
      ∀ countryId : String,
        (processCountryGuess (setupGameConfig raw) s countryId).foundCountryIds ⊆
          (processCountryGuess (setupGameConfig raw) s countryId).targetCountryIds) ∧
    (∀ s : GameState,
      (resetRound (setupGameConfig raw) s).2.foundCountryIds ⊆
        (resetRound (setupGameConfig raw) s).2.targetCountryIds) ∧
    ∀ (catalog : List Country) (k : Nat) (s : GameState) (steps : List RoundStep),
      (steps.foldl (roundStep (setupGameConfig raw))
          (startRound (setupGameConfig raw) catalog k s)).foundCountryIds ⊆
        (steps.foldl (roundStep (setupGameConfig raw))
          (startRound (setupGameConfig raw) catalog k s)).targetCountryIds := by
  have hfold : ∀ (steps : List RoundStep) (t : GameState),
      t.foundCountryIds ⊆ t.targetCountryIds →
      (steps.foldl (roundStep (setupGameConfig raw)) t).foundCountryIds ⊆
        (steps.foldl (roundStep (setupGameConfig raw)) t).targetCountryIds := by
    intro steps
    induction steps with
    | nil => exact fun t ht => ht
    | cons st sts ih => exact fun t ht => ih _ (subset_step _ ht st)
  refine ⟨?_, ?_, ?_, ?_⟩
  · intro catalog k s
    rw [startRound_found]
    exact List.nil_subset _
  · intro s hsub countryId
    exact subset_step _ hsub (.guess countryId)
  · intro s
    exact List.nil_subset _
  · intro catalog k s steps
    apply hfold
    rw [startRound_found]
    exact List.nil_subset _

/-- C5 witness: a processed guess from the sample running round (whose found
set is empty) keeps the subset invariant. -/
theorem found_subset_target_witness :
    (processCountryGuess (setupGameConfig rawDefault) exRunning "004").foundCountryIds ⊆
      (processCountryGuess (setupGameConfig rawDefault) exRunning "004").targetCountryIds :=
  (found_subset_target rawDefault).2.1 exRunning (List.nil_subset _) "004"

theorem countdownTick_of_inactive {s : GameState} (h : s.active = false) :
    countdownTick s = s := by
  unfold countdownTick
  rw [if_pos h]

theorem countdownTick_iterate_inactive {s : GameState} (h : s.active = false) :
    ∀ n, countdownTick^[n] s = s := by
  intro n
  induction n with
  | zero => rfl
  | succ n ih => rw [Function.iterate_succ_apply, countdownTick_of_inactive h, ih]

/-- C6: while a round is running, a new correct guess that brings the found
count up to `requiredCount` deterministically transitions the round to `Won`
and deactivates it, after which countdown ticks are identities (so
`timeRemaining` never decrements again); and a countdown tick that brings
`timeRemaining` to 0 while running deterministically transitions to `Lost`
with the streak frozen at 0, the round deactivated, and all further ticks
identities. -/
theorem round_terminal_transitions (raw : RawConfig) :
    (∀ (s : GameState) (countryId : String),
      s.active = true → isTargetGuess s countryId →
      countryId ∉ s.foundCountryIds →
      s.requiredCount ≤ ((s.foundCount + 1 : Nat) : ℚ) →
      (processCountryGuess (setupGameConfig raw) s countryId).status = .won ∧
      (processCountryGuess (setupGameConfig raw) s countryId).active = false ∧
      ∀ n, countdownTick^[n] (processCountryGuess (setupGameConfig raw) s countryId) =
        processCountryGuess (setupGameConfig raw) s countryId) ∧
    ∀ s : GameState, s.active = true → s.timeRemaining ≤ 1 →
      (countdownTick s).status = .lost ∧
      (countdownTick s).streak = 0 ∧
      (countdownTick s).active = false ∧
      ∀ n, countdownTick^[n] (countdownTick s) = countdownTick s := by
  constructor
  · intro s countryId h1 hok h3 hreq
    have h2 : ¬ (countryId = "" ∨ countryId ∉ s.targetCountryIds) := fun h =>
      h.elim (fun he => hok.1 he) (fun hn => hn hok.2)
    obtain ⟨-, -, -, hwin⟩ :=
      processCountryGuess_new_facts (setupGameConfig raw) h1 h2 h3
    obtain ⟨hstat, hact⟩ := hwin hreq
    exact ⟨hstat, hact, countdownTick_iterate_inactive hact⟩
  · intro s h1 ht
    have hnext : max 0 (s.timeRemaining - 1) ≤ 0 := max_le (le_refl 0) (by linarith)
    have heq : countdownTick s =
        { s with
          timeRemaining := max 0 (s.timeRemaining - 1), active := false,
          status := .lost, streak := 0 } := by
      unfold countdownTick
      rw [if_neg (by simp [h1])]
      dsimp only
      rw [if_pos hnext]
    rw [heq]
    exact ⟨rfl, rfl, rfl, countdownTick_iterate_inactive rfl⟩

/-- C6 witness: the sample running round is won by guessing its single
required country, and three further ticks change nothing. -/
theorem round_terminal_transitions_witness :
    exRunning.active = true ∧
    (processCountryGuess (setupGameConfig rawDefault) exRunning "004").status =
      GameStatus.won ∧
    (processCountryGuess (setupGameConfig rawDefault) exRunning "004").active = false ∧
    countdownTick^[3] (processCountryGuess (setupGameConfig rawDefault) exRunning "004") =
      processCountryGuess (setupGameConfig rawDefault) exRunning "004" :=
  have h := (round_terminal_transitions rawDefault).1 exRunning "004" rfl
    ⟨by decide, by decide⟩ (by decide)
    (by show (1 : ℚ) ≤ ((0 + 1 : Nat) : ℚ); norm_num)
  ⟨rfl, h.1, h.2.1, h.2.2 3⟩

/-- C3 (divergence evidence): with two countries under `'a'` and one under
`'b'`, `pickTargetRound` draws uniformly from **all** bucket entries
(`pool = entries`), so the random index 1 selects the letter `'b'` whose
bucket (size 1) is strictly smaller than the maximal `'a'` bucket (size 2) —
the sort by descending bucket size does not restrict the draw.  The
`requiredCount = min(configuredMax, bucketSize)` part does hold
(`min 10 1 = 1` here). -/
theorem pickTargetRound_picks_nonmaximal_bucket :
    pickTargetRound (setupGameConfig rawDefault)
        [⟨"004", 'a'⟩, ⟨"008", 'a'⟩, ⟨"050", 'b'⟩] 1 =
      some ⟨'b', [⟨"050", 'b'⟩], 1⟩ ∧
    buildBuckets [⟨"004", 'a'⟩, ⟨"008", 'a'⟩, ⟨"050", 'b'⟩] =
      [('a', [⟨"004", 'a'⟩, ⟨"008", 'a'⟩]), ('b', [⟨"050", 'b'⟩])] := by
  constructor
  · have h : pickTargetRound (setupGameConfig rawDefault)
        [⟨"004", 'a'⟩, ⟨"008", 'a'⟩, ⟨"050", 'b'⟩] 1 =
        some ⟨'b', [⟨"050", 'b'⟩],
          min (setupGameConfig rawDefault).maxTargetCount ((1 : Nat) : ℚ)⟩ := rfl
    rw [h]
    have hmt : (setupGameConfig rawDefault).maxTargetCount = 10 := by
      show max 1 (numOr none 10) = 10
      norm_num [numOr]
    rw [hmt]
    have hmin : min (10 : ℚ) ((1 : Nat) : ℚ) = 1 := by norm_num
    rw [hmin]
  · decide
